import Mathlib

/-! ShoreSquad (`src/js/app.js`): a shallow embedding and its verified properties.

The JavaScript functions of `app.js` are rendered as Lean functions.

* JavaScript numbers that the claims treat as integers are `Int`; where the program does
  arithmetic on them (`participants++`) the result is rounded to the nearest double.
* Module-level mutable state (`crewMembers`, `SAMPLE_EVENTS`) is passed explicitly and
  the new state is returned.
* A JavaScript exception is the `Except.error` of `Except JsError`.
* An optional DOM element (`document.getElementById` may return `null`) is an `Option`.
* Answers of the user to `prompt` and `confirm` are arguments.
-/

set_option autoImplicit false

namespace ShoreSquad

/-! ## JavaScript runtime pieces used by the program -/

/-- Exceptions the modelled code can raise. -/
inductive JsError where
  /-- Property access on `undefined` or `null`, or a call of a non-function. -/
  | typeError : JsError
  /-- The exception `new Error(msg)` thrown by the program itself. -/
  | error : String → JsError
  /-- The promise of `fetch` rejected (network failure). -/
  | networkError : JsError
  /-- The promise of `response.json()` rejected (body is not JSON). -/
  | syntaxError : JsError
  deriving DecidableEq, Repr

deriving instance DecidableEq for Except

/-- The method `Array.prototype.splice(start, deleteCount)` for an integer `start` and a natural
`deleteCount`, returning the array after the removal (the array is edited in place in
JavaScript). Following ECMA-262: a negative `start` counts from the end and is clamped at
`0`, a non-negative one is clamped at the length; the count is clamped at the number of
elements after the start. -/
def splice {α : Type} (xs : List α) (start : Int) (deleteCount : Nat) : List α :=
  let len : Int := xs.length
  let actualStart : Nat :=
    if start < 0 then (max (len + start) 0).toNat else (min start len).toNat
  let actualDeleteCount : Nat := min deleteCount (xs.length - actualStart)
  xs.take actualStart ++ xs.drop (actualStart + actualDeleteCount)

/-- The exponent of the unit in the last place of the double nearest to the natural number
`a`: the least `e`, searched upwards from the given one, with `a / 2 ^ e < 2 ^ 53` (a double
holds 53 significant bits). The first argument bounds the search; `a` itself always
suffices. -/
def ulpExponent (a : Nat) : Nat → Nat → Nat
  | 0, e => e
  | fuel + 1, e => if a / 2 ^ e < 2 ^ 53 then e else ulpExponent a fuel (e + 1)

/-- The IEEE-754 double nearest to the integer `x`, ties to the even significand: the
result of an arithmetic operation on number values whose exact result is `x`. Integers of
absolute value up to `2 ^ 53` are kept as they are. -/
def roundToDouble (x : Int) : Int :=
  let a := x.natAbs
  let e := ulpExponent a a 0
  let q := a / 2 ^ e
  let r := a % 2 ^ e
  let q1 := if 2 ^ e < 2 * r ∨ (2 * r = 2 ^ e ∧ q % 2 = 1) then q + 1 else q
  x.sign * ((q1 * 2 ^ e : Nat) : Int)

/-- The value `n++` stores for a number value that is the integer `n`: the double nearest
to `n + 1`. -/
def jsIncrement (n : Int) : Int :=
  roundToDouble (n + 1)

/-- The code points that `String.prototype.trim` strips: ECMA-262 `WhiteSpace`
(TAB, VT, FF, ZWNBSP and the Unicode category Zs) and `LineTerminator`
(LF, CR, LS, PS). -/
def isJsWhiteSpace (c : Char) : Bool :=
  let n := c.toNat
  n = 0x09 || n = 0x0A || n = 0x0B || n = 0x0C || n = 0x0D || n = 0x20 || n = 0xA0 ||
  n = 0x1680 || (0x2000 ≤ n && n ≤ 0x200A) || n = 0x2028 || n = 0x2029 || n = 0x202F ||
  n = 0x205F || n = 0x3000 || n = 0xFEFF

/-- The method `String.prototype.trim` on the list of characters. -/
def jsTrimChars (cs : List Char) : List Char :=
  ((cs.dropWhile isJsWhiteSpace).reverse.dropWhile isJsWhiteSpace).reverse

/-- The method `String.prototype.trim` on a string. -/
def jsTrim (s : String) : String :=
  String.mk (jsTrimChars s.data)

/-- JavaScript truthiness of a string: only the empty string is falsy. -/
def jsTruthy (s : String) : Bool :=
  !s.data.isEmpty

/-! ## Weather codes (`getWeatherDescription`, `getWeatherEmoji`) -/

/-- The object literal `weatherCodes` of `getWeatherDescription`, in source order. -/
def weatherCodes : List (Int × String) :=
  [ (0, "Clear"),
    (1, "Partly Cloudy"),
    (2, "Partly Cloudy"),
    (3, "Overcast"),
    (45, "Foggy"),
    (48, "Foggy"),
    (51, "Light Drizzle"),
    (53, "Moderate Drizzle"),
    (55, "Heavy Drizzle"),
    (61, "Slight Rain"),
    (63, "Moderate Rain"),
    (65, "Heavy Rain"),
    (71, "Slight Snow"),
    (73, "Moderate Snow"),
    (75, "Heavy Snow"),
    (80, "Slight Showers"),
    (81, "Moderate Showers"),
    (82, "Heavy Showers"),
    (85, "Slight Snow Showers"),
    (86, "Heavy Snow Showers"),
    (95, "Thunderstorm"),
    (96, "Thunderstorm with Hail"),
    (99, "Thunderstorm with Hail") ]

/-- Property lookup `obj[code]` on an object literal with integer keys: the value of the
key, or `none` for `undefined`. -/
def lookupCode (code : Int) : List (Int × String) → Option String
  | [] => none
  | (k, v) :: rest => if k = code then some v else lookupCode code rest

/-- Source: `getWeatherDescription(code)`, `return weatherCodes[code] || 'Unknown'`. -/
def getWeatherDescription (code : Int) : String :=
  match lookupCode code weatherCodes with
  | some label => if jsTruthy label then label else "Unknown"
  | none => "Unknown"

/-- Source: `getWeatherEmoji(code)`, a chain of `if (...) return`. -/
def getWeatherEmoji (code : Int) : String :=
  if code = 0 then "☀️"
  else if code ≤ 3 then "⛅"
  else if [45, 48].contains code then "🌫️"
  else if [51, 53, 55, 80, 81, 82].contains code then "🌧️"
  else if [61, 63, 65].contains code then "🌧️"
  else if [71, 73, 75, 85, 86].contains code then "❄️"
  else if [95, 96, 99].contains code then "⛈️"
  else "🌤️"

/-- The rule list of the specification, word for word: `0`, `1..3`, the five sets, and
the "mild" glyph for every other code. Used only to compare with `getWeatherEmoji`. -/
def emojiDocumented (code : Int) : String :=
  if code = 0 then "☀️"
  else if 1 ≤ code ∧ code ≤ 3 then "⛅"
  else if code ∈ [45, 48] then "🌫️"
  else if code ∈ [51, 53, 55, 80, 81, 82] then "🌧️"
  else if code ∈ [61, 63, 65] then "🌧️"
  else if code ∈ [71, 73, 75, 85, 86] then "❄️"
  else if code ∈ [95, 96, 99] then "⛈️"
  else "🌤️"

/-- The candidate sets of the rule list with their glyphs, the second one widened to
what the code tests (`1..3` and every negative code). -/
def emojiRules : List ((Int → Bool) × String) :=
  [ (fun c => decide (c = 0), "☀️"),
    (fun c => decide ((1 ≤ c ∧ c ≤ 3) ∨ c < 0), "⛅"),
    (fun c => decide (c ∈ [45, 48]), "🌫️"),
    (fun c => decide (c ∈ [51, 53, 55, 80, 81, 82]), "🌧️"),
    (fun c => decide (c ∈ [61, 63, 65]), "🌧️"),
    (fun c => decide (c ∈ [71, 73, 75, 85, 86]), "❄️"),
    (fun c => decide (c ∈ [95, 96, 99]), "⛈️") ]

/-- First-match-wins evaluation of a rule list, with a default glyph at the end. -/
def firstMatch (fallback : String) (code : Int) : List ((Int → Bool) × String) → String
  | [] => fallback
  | (p, g) :: rest => if p code then g else firstMatch fallback code rest

/-! ## Events (`SAMPLE_EVENTS`, `joinEvent`, `shareEvent`) -/

/-- An element of `SAMPLE_EVENTS`. Coordinates are kept in millionths of a degree. -/
structure Event where
  id : Int
  name : String
  date : String
  time : String
  location : String
  participants : Int
  description : String
  latitude : Int
  longitude : Int
  deriving DecidableEq, Repr

/-- The seed data `SAMPLE_EVENTS`. -/
def SAMPLE_EVENTS : List Event :=
  [ { id := 1, name := "Pasir Ris Beach Cleanup", date := "2025-12-15", time := "08:00 AM",
      location := "Pasir Ris Beach, Singapore", participants := 24,
      description := "Join us for a morning cleanup at Pasir Ris Beach",
      latitude := 1381497, longitude := 103955574 },
    { id := 2, name := "East Coast Beach Restoration", date := "2025-12-20",
      time := "10:00 AM", location := "East Coast, Singapore", participants := 18,
      description := "Help restore the beautiful East Coast Beach",
      latitude := 1303000, longitude := 103912700 },
    { id := 3, name := "Sentosa Beach Impact Day", date := "2025-12-22", time := "09:00 AM",
      location := "Sentosa Beach", participants := 32,
      description := "Large-scale cleanup event for year-end impact",
      latitude := 1249800, longitude := 103827800 } ]

/-- The effect of `event.participants++` on the event object: a number increment, which is
exact only while the result is a safe integer (at `2 ^ 53` the counter stays). -/
def Event.incrementParticipants (event : Event) : Event :=
  { event with participants := jsIncrement event.participants }

/-- Source: `joinEvent(eventId)`. `find` yields the first event whose id is `eventId`,
the very object stored in the array, and `event.participants++` updates it in place; the
`alert` and the console message of `addEventMarkers` do not touch the event list. -/
def joinEvent (events : List Event) (eventId : Int) : List Event :=
  match events.findIdx? (fun e => e.id == eventId) with
  | some i => events.modify Event.incrementParticipants i
  | none => events

/-- What a completed `shareEvent` did. -/
inductive ShareAction where
  /-- The call `navigator.share` with its `title` and `text`. -/
  | nativeShare (title text : String) : ShareAction
  /-- The call `alert(message)`: the local share prompt. -/
  | alert (message : String) : ShareAction
  deriving DecidableEq, Repr

/-- Source: `shareEvent(eventId)`. `shareAvailable` is the truthiness of
`navigator.share`. The test is `event && navigator.share`; its `else` branch reads
`event.name`, a `TypeError` when `find` returned `undefined`. -/
def shareEvent (events : List Event) (shareAvailable : Bool) (eventId : Int) :
    Except JsError ShareAction :=
  let event := events.find? (fun e => e.id == eventId)
  if event.isSome && shareAvailable then
    match event with
    | some e => .ok (.nativeShare "ShoreSquad Event" ("Join me for " ++ e.name ++ "!"))
    | none => .error .typeError
  else
    match event with
    | some e => .ok (.alert ("Share \"" ++ e.name ++ "\" with your crew! 🌊"))
    | none => .error .typeError

/-! ## Crew (`renderTeam`, `createTeamCard`, `addTeamMember`, `removeMember`) -/

/-- A card made by `createTeamCard`: the name shown and the argument written into
`onclick="removeMember(index)"`. -/
structure TeamCard where
  memberName : String
  index : Nat
  deriving DecidableEq, Repr

/-- A child element of `teamGrid`. -/
inductive GridChild where
  /-- An element with the class `add-member`. -/
  | addMember : GridChild
  /-- A card made by `createTeamCard`. -/
  | teamCard : TeamCard → GridChild
  /-- Any other element. -/
  | other : GridChild
  deriving DecidableEq, Repr

/-- The module state of the crew section: the array `crewMembers` and the children of
the element `teamGrid` (`none` when the element is missing). -/
structure CrewState where
  crewMembers : List String
  teamGrid : Option (List GridChild)
  deriving DecidableEq, Repr

/-- Source: `createTeamCard(memberName, index)`. -/
def createTeamCard (memberName : String) (index : Nat) : TeamCard :=
  { memberName := memberName, index := index }

/-- The cards of `crewMembers.forEach((member, index) => ...)` in `renderTeam`: one for
each member other than `'You'`, made with the member's index in `crewMembers`. -/
def teamCards (crewMembers : List String) : List TeamCard :=
  crewMembers.enum.filterMap fun (index, member) =>
    if member ≠ "You" then some (createTeamCard member index) else none

/-- Source: `renderTeam()`. Children without the class `add-member` are removed and every
card is inserted before the first `add-member` child (`insertBefore` with `null`
appends). -/
def renderTeam (teamGrid : Option (List GridChild)) (crewMembers : List String) :
    Option (List GridChild) :=
  match teamGrid with
  | none => none
  | some children =>
    let kept := children.filter (fun child => child == GridChild.addMember)
    some ((teamCards crewMembers).map GridChild.teamCard ++ kept)

/-- Source: `addTeamMember()`. `input` is the answer of `prompt`: `none` for `null`
(cancelled). -/
def addTeamMember (input : Option String) (s : CrewState) : CrewState :=
  match input with
  | none => s
  | some name =>
    if jsTruthy name && jsTruthy (jsTrim name) then
      let crew := s.crewMembers ++ [jsTrim name]
      { crewMembers := crew, teamGrid := renderTeam s.teamGrid crew }
    else s

/-- Source: `removeMember(index)`. `confirmed` is the answer of `confirm`. -/
def removeMember (confirmed : Bool) (index : Int) (s : CrewState) : CrewState :=
  if confirmed then
    let crew := splice s.crewMembers (index + 1) 1
    { crewMembers := crew, teamGrid := renderTeam s.teamGrid crew }
  else s

/-- The `Remove` button of a card: its `onclick` is `removeMember(index)` with the index
the card was made with. -/
def TeamCard.remove (card : TeamCard) (confirmed : Bool) (s : CrewState) : CrewState :=
  removeMember confirmed (card.index : Int) s

/-! ## Weather display (`displayWeather`, `displayForecast`, `displayWeatherError`,
`fetchWeatherData`) -/

/-- Platform functions that turn a value into text. `ν` is the type of the numbers of the
payload; `none` stands for `undefined` (a missing field, an index past the end). -/
structure Formatter (ν : Type) where
  /-- The text of `Math.round(x)` inside a template literal. -/
  roundText : Option ν → String
  /-- The text of `x` inside a template literal. -/
  text : Option ν → String
  /-- The text of `formatDate(new Date(x))`. -/
  formatDate : Option String → String

/-- The object `data.current`; a missing field is `none`. -/
structure CurrentWeather (ν : Type) where
  temperature_2m : Option ν
  wind_speed_10m : Option ν
  relative_humidity_2m : Option ν
  weather_code : Option Int
  deriving DecidableEq, Repr

/-- The object `data.daily`; a missing array is `none`. -/
structure DailyData (ν : Type) where
  time : Option (List String)
  temperature_2m_max : Option (List ν)
  temperature_2m_min : Option (List ν)
  weather_code : Option (List Int)
  deriving DecidableEq, Repr

/-- The function `getWeatherDescription` on a value that may be `undefined`: the key
`undefined` is not in the table. -/
def describeCode (code : Option Int) : String :=
  match code with
  | some c => getWeatherDescription c
  | none => "Unknown"

/-- The function `getWeatherEmoji` on a value that may be `undefined`: every test of the chain is
false for `undefined`. -/
def emojiOfCode (code : Option Int) : String :=
  match code with
  | some c => getWeatherEmoji c
  | none => "🌤️"

/-- A `forecast-card` element: the five texts of its template. -/
structure ForecastCard where
  date : String
  emoji : String
  condition : String
  maxTemp : String
  minTemp : String
  deriving DecidableEq, Repr

/-- Content of the element `forecastWidget`. -/
inductive ForecastContent where
  /-- The child cards, in document order. -/
  | cards : List ForecastCard → ForecastContent
  /-- Markup assigned through `innerHTML`. -/
  | html : String → ForecastContent
  deriving DecidableEq, Repr

/-- The elements the weather code writes to; `none` when `getElementById` finds nothing,
otherwise the current text or content. -/
structure WeatherUI where
  temp : Option String
  wind : Option String
  humidity : Option String
  condition : Option String
  forecastWidget : Option ForecastContent
  deriving DecidableEq, Repr

/-- Source: `displayWeather(weatherData)`; `none` is an `undefined` or `null` argument,
on which the first assignment that runs throws. -/
def displayWeather {ν : Type} (F : Formatter ν) (ui : WeatherUI)
    (weatherData : Option (CurrentWeather ν)) : Except JsError WeatherUI :=
  match weatherData with
  | some w =>
    .ok { ui with
      temp := ui.temp.map fun _ => F.roundText w.temperature_2m ++ "°C"
      wind := ui.wind.map fun _ => F.roundText w.wind_speed_10m ++ " km/h"
      humidity := ui.humidity.map fun _ => F.text w.relative_humidity_2m ++ "%"
      condition := ui.condition.map fun _ => describeCode w.weather_code }
  | none =>
    if ui.temp.isSome || ui.wind.isSome || ui.humidity.isSome || ui.condition.isSome then
      .error .typeError
    else .ok ui

/-- The body of the loop of `displayForecast` at index `i`, up to the creation of the
card: reading `arr[i]` throws when the array itself is `undefined`. -/
def forecastCardAt {ν : Type} (F : Formatter ν) (dailyData : DailyData ν) (time : List String)
    (i : Nat) : Except JsError ForecastCard :=
  match dailyData.temperature_2m_max, dailyData.temperature_2m_min, dailyData.weather_code with
  | some maxs, some mins, some codes =>
    .ok { date := F.formatDate time[i]?
          emoji := emojiOfCode codes[i]?
          condition := describeCode codes[i]?
          maxTemp := F.roundText maxs[i]?
          minTemp := F.roundText mins[i]? }
  | _, _, _ => .error .typeError

/-- The values of `i` in `for (let i = 1; i <= 4 && i < length; i++)`. -/
def forecastIndices (length : Nat) : List Nat :=
  (List.range' 1 4).takeWhile fun i => decide (i ≤ 4) && decide (i < length)

/-- Runs the loop body over the indices, appending each card to the children; stops at
the first exception, keeping the children appended so far. -/
def appendCards (mk : Nat → Except JsError ForecastCard) :
    List Nat → List ForecastCard → List ForecastCard × Option JsError
  | [], children => (children, none)
  | i :: rest, children =>
    match mk i with
    | .ok card => appendCards mk rest (children ++ [card])
    | .error e => (children, some e)

/-- Source: `displayForecast(dailyData)`. Returns the interface after the call and the
exception that ended it, if any. -/
def displayForecast {ν : Type} (F : Formatter ν) (ui : WeatherUI) (dailyData : DailyData ν) :
    WeatherUI × Option JsError :=
  match ui.forecastWidget with
  | none => (ui, none)
  | some _ =>
    match dailyData.time with
    | none => ({ ui with forecastWidget := some (.cards []) }, some .typeError)
    | some time =>
      let run := appendCards (forecastCardAt F dailyData time) (forecastIndices time.length) []
      ({ ui with forecastWidget := some (.cards run.1) }, run.2)

/-- Source: `displayWeatherError()`. -/
def displayWeatherError (ui : WeatherUI) : WeatherUI :=
  { temp := ui.temp.map fun _ => "Error loading"
    wind := ui.wind.map fun _ => "Error loading"
    humidity := ui.humidity.map fun _ => "Error loading"
    condition := ui.condition.map fun _ => "Error loading"
    forecastWidget := ui.forecastWidget.map fun _ =>
      .html "<p class=\"loading\">Unable to load forecast</p>" }

/-- The value `response.json()` resolves to. -/
inductive Body (ν : Type) where
  /-- The JSON value `null`, on which `data.current` throws. -/
  | null : Body ν
  /-- Any other value: `current` is `none` when `data.current` is `undefined` or `null`,
  `daily` is `none` when `data.daily` is falsy. -/
  | value (current : Option (CurrentWeather ν)) (daily : Option (DailyData ν)) : Body ν

/-- How the request of `fetchWeatherData` ends. -/
inductive FetchOutcome (ν : Type) where
  /-- The promise of `fetch` rejects. -/
  | requestFailed : FetchOutcome ν
  /-- A response with its `ok` flag; `body` is `none` when `response.json()` rejects. -/
  | response (ok : Bool) (body : Option (Body ν)) : FetchOutcome ν

/-- The three display functions. -/
inductive Call where
  | displayWeather : Call
  | displayForecast : Call
  | displayWeatherError : Call
  deriving DecidableEq, Repr

/-- State of one run of `fetchWeatherData`: the display functions called so far, in
order, the interface and the module variable `currentWeather`. -/
structure FetchRun (ν : Type) where
  calls : List Call
  ui : WeatherUI
  currentWeather : Option (CurrentWeather ν)

/-- The `try` block of `fetchWeatherData`: the state it reached and the exception that
left it, if any. -/
def fetchTry {ν : Type} (F : Formatter ν) (outcome : FetchOutcome ν) (start : FetchRun ν) :
    FetchRun ν × Option JsError :=
  match outcome with
  | .requestFailed => (start, some .networkError)
  | .response false _ => (start, some (.error "Weather API request failed"))
  | .response true none => (start, some .syntaxError)
  | .response true (some .null) => (start, some .typeError)
  | .response true (some (.value current daily)) =>
    let called : FetchRun ν :=
      { start with currentWeather := current, calls := start.calls ++ [.displayWeather] }
    match displayWeather F start.ui current with
    | .error e => (called, some e)
    | .ok ui1 =>
      match daily with
      | none => ({ called with ui := ui1 }, none)
      | some dailyData =>
        let shown := displayForecast F ui1 dailyData
        ({ called with ui := shown.1, calls := called.calls ++ [.displayForecast] }, shown.2)

/-- Source: `fetchWeatherData()`: the `try` block, then the `catch` block when an
exception left it. -/
def fetchWeatherData {ν : Type} (F : Formatter ν) (outcome : FetchOutcome ν)
    (start : FetchRun ν) : FetchRun ν :=
  match fetchTry F outcome start with
  | (run, none) => run
  | (run, some _) =>
    { run with ui := displayWeatherError run.ui,
               calls := run.calls ++ [.displayWeatherError] }

/-- A formatter for integer payloads, used to evaluate the display functions on examples:
rounding an integer leaves it as it is; `undefined` rounds to `NaN`. The date text is the
date string itself. -/
def plainFormatter : Formatter Int where
  roundText := fun x => match x with
    | some n => toString n
    | none => "NaN"
  text := fun x => match x with
    | some n => toString n
    | none => "undefined"
  formatDate := fun x => match x with
    | some d => d
    | none => "Invalid Date"

/-! ## Properties of the weather-code translation -/

theorem lookupCode_of_not_mem (code : Int) (table : List (Int × String))
    (h : code ∉ table.map Prod.fst) : lookupCode code table = none := by
  induction table with
  | nil => rfl
  | cons kv rest ih =>
    obtain ⟨k, v⟩ := kv
    simp only [List.map_cons, List.mem_cons, not_or] at h
    simp only [lookupCode]
    rw [if_neg (fun hk => h.1 hk.symm)]
    exact ih h.2

theorem getWeatherEmoji_of_rule (code : Int) :
    ∀ r ∈ emojiRules, r.1 code = true → r.2 = getWeatherEmoji code := by
  intro r hr hcode
  simp only [emojiRules, List.mem_cons, List.mem_singleton, List.not_mem_nil, or_false] at hr
  rcases hr with rfl | rfl | rfl | rfl | rfl | rfl | rfl
  · simp only [decide_eq_true_eq] at hcode
    subst hcode
    rfl
  · simp only [decide_eq_true_eq] at hcode
    have h0 : code ≠ 0 := by omega
    have h3 : code ≤ 3 := by omega
    simp only [getWeatherEmoji, if_neg h0, if_pos h3]
  all_goals
    simp only [decide_eq_true_eq, List.mem_cons, List.mem_singleton, List.not_mem_nil,
      or_false] at hcode
    rcases hcode with rfl | hcode
    · rfl
    repeat (first | (subst hcode; rfl) | (rcases hcode with rfl | hcode; rfl))

theorem getWeatherEmoji_of_no_rule (code : Int)
    (h : ∀ r ∈ emojiRules, r.1 code = false) : getWeatherEmoji code = "🌤️" := by
  simp only [emojiRules, List.mem_cons, List.mem_singleton, List.not_mem_nil, or_false,
    forall_eq_or_imp, forall_eq, decide_eq_false_iff_not, not_or, not_and, not_le, not_lt,
    false_imp_iff, implies_true, and_true] at h
  obtain ⟨h0, h1, h2, h3, h4, h5, h6⟩ := h
  have h3' : ¬ code ≤ 3 := by omega
  simp only [getWeatherEmoji, if_neg h0, if_neg h3', List.contains_eq_any_beq, List.any_cons,
    List.any_nil, Bool.or_false, Bool.or_eq_true, beq_iff_eq]
  simp only [eq_comm] at h2 h3 h4 h5 h6 ⊢
  simp [h2, h3, h4, h5, h6]

theorem firstMatch_of_forall (fallback g : String) (code : Int) :
    ∀ rules : List ((Int → Bool) × String),
      (∀ r ∈ rules, r.1 code = true → r.2 = g) → (∃ r ∈ rules, r.1 code = true) →
      firstMatch fallback code rules = g := by
  intro rules
  induction rules with
  | nil => intro _ h; simp at h
  | cons r rest ih =>
    intro hall hex
    obtain ⟨p, q⟩ := r
    simp only [firstMatch]
    by_cases hp : p code = true
    · rw [if_pos hp]
      exact hall (p, q) (List.mem_cons_self _ _) hp
    · rw [if_neg hp]
      apply ih
      · intro r hr
        exact hall r (List.mem_cons_of_mem _ hr)
      · obtain ⟨r, hr, hrc⟩ := hex
        rcases List.mem_cons.mp hr with rfl | hr
        · exact absurd hrc hp
        · exact ⟨r, hr, hrc⟩

theorem firstMatch_of_none (fallback : String) (code : Int) :
    ∀ rules : List ((Int → Bool) × String),
      (∀ r ∈ rules, r.1 code = false) → firstMatch fallback code rules = fallback := by
  intro rules
  induction rules with
  | nil => intro _; rfl
  | cons r rest ih =>
    intro hall
    obtain ⟨p, q⟩ := r
    have hp : p code = false := hall (p, q) (List.mem_cons_self _ _)
    simp only [firstMatch, hp, Bool.false_eq_true, if_false]
    exact ih fun r hr => hall r (List.mem_cons_of_mem _ hr)

theorem firstMatch_perm_emojiRules (code : Int) (rules : List ((Int → Bool) × String))
    (hperm : rules.Perm emojiRules) : firstMatch "🌤️" code rules = getWeatherEmoji code := by
  by_cases hex : ∃ r ∈ rules, r.1 code = true
  · apply firstMatch_of_forall _ _ _ _ _ hex
    intro r hr hrc
    exact getWeatherEmoji_of_rule code r (hperm.mem_iff.mp hr) hrc
  · have hnone : ∀ r ∈ rules, r.1 code = false := by
      intro r hr
      by_contra hrc
      exact hex ⟨r, hr, by simpa using hrc⟩
    rw [firstMatch_of_none _ _ _ hnone]
    symm
    apply getWeatherEmoji_of_no_rule
    intro r hr
    exact hnone r (hperm.mem_iff.mpr hr)

/-- C10: for every code of the closed table `getWeatherDescription` returns the label the
table `weatherCodes` maps it to, for every other integer it returns "Unknown"; the keys
of the table are exactly the 23 listed codes, and code 3 gives "Overcast". The function is
total, so it never fails. -/
theorem getWeatherDescription_table (code : Int) :
    (∀ label, (code, label) ∈ weatherCodes → getWeatherDescription code = label) ∧
    (code ∉ [0, 1, 2, 3, 45, 48, 51, 53, 55, 61, 63, 65, 71, 73, 75, 80, 81, 82, 85, 86,
        95, 96, 99] → getWeatherDescription code = "Unknown") ∧
    weatherCodes.map Prod.fst = [0, 1, 2, 3, 45, 48, 51, 53, 55, 61, 63, 65, 71, 73, 75,
        80, 81, 82, 85, 86, 95, 96, 99] ∧
    getWeatherDescription 3 = "Overcast" := by
  refine ⟨?_, ?_, rfl, by decide⟩
  · intro label h
    simp only [weatherCodes, List.mem_cons, List.mem_singleton, List.not_mem_nil, or_false,
      Prod.mk.injEq] at h
    rcases h with h | h | h | h | h | h | h | h | h | h | h | h | h | h | h | h | h | h | h |
      h | h | h | h <;>
    · obtain ⟨rfl, rfl⟩ := h
      decide
  · intro h
    have hnone : lookupCode code weatherCodes = none :=
      lookupCode_of_not_mem code weatherCodes h
    simp only [getWeatherDescription, hnone]

/-- C10 witness: code 3 is in the table and maps to "Overcast"; code 4 is outside the table
and maps to "Unknown". -/
theorem getWeatherDescription_table_witness :
    getWeatherDescription 3 = "Overcast" ∧ getWeatherDescription 4 = "Unknown" :=
  ⟨(getWeatherDescription_table 3).1 "Overcast" (by decide),
   (getWeatherDescription_table 4).2.1 (by decide)⟩

/-- C4 (as stated, refuted): at the negative code `-1` the code returns the partly-cloudy
glyph, while the documented rule list gives the generic "mild" glyph. -/
theorem getWeatherEmoji_negative_counterexample :
    getWeatherEmoji (-1) = "⛅" ∧ emojiDocumented (-1) = "🌤️" ∧
    getWeatherEmoji (-1) ≠ emojiDocumented (-1) := by
  decide

/-- C4 (amended): `getWeatherEmoji` returns: 0 -> clear-sky; 1..3 and every negative code
-> partly-cloudy; {45,48} -> fog; {51,53,55,80,81,82} and {61,63,65} -> rain;
{71,73,75,85,86} -> snow; {95,96,99} -> thunderstorm; every other code (greater than 3 and
in none of the sets) -> the generic "mild" glyph. These candidate sets are pairwise
disjoint, and evaluating them first-match-wins in any order gives the same result. -/
theorem getWeatherEmoji_rules (code : Int) :
    (code = 0 → getWeatherEmoji code = "☀️") ∧
    ((1 ≤ code ∧ code ≤ 3) ∨ code < 0 → getWeatherEmoji code = "⛅") ∧
    (code ∈ [45, 48] → getWeatherEmoji code = "🌫️") ∧
    (code ∈ [51, 53, 55, 80, 81, 82] ∨ code ∈ [61, 63, 65] → getWeatherEmoji code = "🌧️") ∧
    (code ∈ [71, 73, 75, 85, 86] → getWeatherEmoji code = "❄️") ∧
    (code ∈ [95, 96, 99] → getWeatherEmoji code = "⛈️") ∧
    (3 < code → code ∉ [45, 48, 51, 53, 55, 80, 81, 82, 61, 63, 65, 71, 73, 75, 85, 86,
        95, 96, 99] → getWeatherEmoji code = "🌤️") ∧
    emojiRules.Pairwise (fun a b => ∀ c : Int, ¬ (a.1 c = true ∧ b.1 c = true)) ∧
    (∀ rules : List ((Int → Bool) × String), rules.Perm emojiRules →
      firstMatch "🌤️" code rules = getWeatherEmoji code) := by
  have hrule := getWeatherEmoji_of_rule code
  simp only [emojiRules, List.mem_cons, List.mem_singleton, List.not_mem_nil, or_false,
    forall_eq_or_imp, forall_eq, decide_eq_true_eq] at hrule
  obtain ⟨r0, r1, r2, r3, r4, r5, r6⟩ := hrule
  refine ⟨fun h => (r0 h).symm, fun h => (r1 h).symm, fun h => (r2 (by simpa using h)).symm,
    ?_, fun h => (r5 (by simpa using h)).symm, fun h => (r6 (by simpa using h)).symm, ?_, ?_,
    fun rules hperm => firstMatch_perm_emojiRules code rules hperm⟩
  · rintro (h | h)
    · exact (r3 (by simpa using h)).symm
    · exact (r4 (by simpa using h)).symm
  · intro h3 hnot
    apply getWeatherEmoji_of_no_rule
    simp only [List.mem_cons, List.mem_singleton, List.not_mem_nil, or_false, not_or] at hnot
    simp only [emojiRules, List.mem_cons, List.mem_singleton, List.not_mem_nil, or_false,
      forall_eq_or_imp, forall_eq, decide_eq_false_iff_not, not_or]
    omega
  · simp only [emojiRules, List.pairwise_cons, List.mem_cons, List.mem_singleton,
      List.not_mem_nil, or_false, forall_eq_or_imp, forall_eq, decide_eq_true_eq,
      List.Pairwise.nil, and_true, false_imp_iff, implies_true]
    refine ⟨?_, ?_, ?_, ?_, ?_, ?_⟩ <;> (try refine ⟨?_, ?_⟩) <;> (try refine ⟨?_, ?_⟩) <;>
      (try refine ⟨?_, ?_⟩) <;> (try refine ⟨?_, ?_⟩) <;> (try refine ⟨?_, ?_⟩) <;>
      intro c <;> omega

/-- C4 witness: the amended rules at codes 0, -5, 2, 45, 80, 63, 75, 99 and 4. -/
theorem getWeatherEmoji_rules_witness :
    getWeatherEmoji 0 = "☀️" ∧ getWeatherEmoji (-5) = "⛅" ∧ getWeatherEmoji 2 = "⛅" ∧
    getWeatherEmoji 45 = "🌫️" ∧ getWeatherEmoji 80 = "🌧️" ∧ getWeatherEmoji 63 = "🌧️" ∧
    getWeatherEmoji 75 = "❄️" ∧ getWeatherEmoji 99 = "⛈️" ∧ getWeatherEmoji 4 = "🌤️" ∧
    firstMatch "🌤️" 2 emojiRules.reverse = getWeatherEmoji 2 :=
  ⟨(getWeatherEmoji_rules 0).1 rfl,
   (getWeatherEmoji_rules (-5)).2.1 (Or.inr (by decide)),
   (getWeatherEmoji_rules 2).2.1 (Or.inl (by decide)),
   (getWeatherEmoji_rules 45).2.2.1 (by decide),
   (getWeatherEmoji_rules 80).2.2.2.1 (Or.inl (by decide)),
   (getWeatherEmoji_rules 63).2.2.2.1 (Or.inr (by decide)),
   (getWeatherEmoji_rules 75).2.2.2.2.1 (by decide),
   (getWeatherEmoji_rules 99).2.2.2.2.2.1 (by decide),
   (getWeatherEmoji_rules 4).2.2.2.2.2.2.1 (by decide) (by decide),
   (getWeatherEmoji_rules 2).2.2.2.2.2.2.2.2 emojiRules.reverse (List.reverse_perm _)⟩

/-! ## Properties of the crew roster -/

theorem splice_one_of_nonneg {α : Type} (xs : List α) (start : Int) (h : 0 ≤ start) :
    splice xs start 1 = xs.eraseIdx start.toNat := by
  obtain ⟨n, rfl⟩ := Int.eq_ofNat_of_zero_le h
  have hneg : ¬ ((n : Int) < 0) := by omega
  simp only [splice, if_neg hneg, Int.toNat_ofNat]
  by_cases hn : n < xs.length
  · have h1 : (min (n : Int) (xs.length : Int)).toNat = n := by omega
    have h2 : min 1 (xs.length - n) = 1 := by omega
    rw [h1, h2, List.eraseIdx_eq_take_drop_succ]
  · have h1 : (min (n : Int) (xs.length : Int)).toNat = xs.length := by omega
    rw [h1, List.eraseIdx_of_length_le (by omega)]
    simp

theorem splice_length_of_neg {α : Type} (xs : List α) (start : Int) (h : start < 0)
    (hne : xs ≠ []) : (splice xs start 1).length + 1 = xs.length := by
  have hpos : 0 < xs.length := List.length_pos.mpr hne
  simp only [splice, if_pos h, List.length_append, List.length_take, List.length_drop]
  omega

theorem teamCards_mem (crew : List String) (card : TeamCard) (h : card ∈ teamCards crew) :
    crew[card.index]? = some card.memberName ∧ card.memberName ≠ "You" := by
  simp only [teamCards, List.mem_filterMap] at h
  obtain ⟨⟨i, m⟩, hmem, hcard⟩ := h
  have hget : crew[i]? = some m := List.mk_mem_enum_iff_getElem?.mp hmem
  by_cases hm : m ≠ "You"
  · rw [if_pos hm] at hcard
    cases hcard
    exact ⟨hget, hm⟩
  · rw [if_neg hm] at hcard
    cases hcard

/-- C1 (code defect): with the roster `["You", "Alice", "Bob"]`, `renderTeam` makes Alice's
card with index 1 and Bob's card with index 2 (their positions in `crewMembers`), and
`removeMember` deletes position `index + 1`: Alice's Remove button deletes Bob, and Bob's
Remove button deletes nobody. -/
theorem remove_button_off_by_one :
    renderTeam (some [GridChild.addMember]) ["You", "Alice", "Bob"] =
      some [.teamCard ⟨"Alice", 1⟩, .teamCard ⟨"Bob", 2⟩, .addMember] ∧
    (TeamCard.remove ⟨"Alice", 1⟩ true
      ⟨["You", "Alice", "Bob"], some [.addMember]⟩).crewMembers = ["You", "Alice"] ∧
    (TeamCard.remove ⟨"Bob", 2⟩ true
      ⟨["You", "Alice", "Bob"], some [.addMember]⟩).crewMembers = ["You", "Alice", "Bob"] := by
  decide

/-- What the Remove button of a rendered card does on any roster: the card shows the member
at position `index` of `crewMembers`, and an accepted removal deletes the entry at position
`index + 1`, if there is one. -/
theorem remove_button_removes_successor (s : CrewState) (card : TeamCard)
    (h : card ∈ teamCards s.crewMembers) :
    s.crewMembers[card.index]? = some card.memberName ∧
    (card.remove true s).crewMembers = s.crewMembers.eraseIdx (card.index + 1) := by
  refine ⟨(teamCards_mem _ _ h).1, ?_⟩
  simp only [TeamCard.remove, removeMember, if_true]
  rw [splice_one_of_nonneg _ _ (by omega)]
  congr 1

/-- C2 (as stated, refuted): position `-1` is out of range, yet an accepted
`removeMember(-1)` on `["You", "Alice"]` deletes the first entry. -/
theorem removeMember_negative_counterexample :
    (-1 : Int) < 0 ∧
    (removeMember true (-1) ⟨["You", "Alice"], some [.addMember]⟩).crewMembers = ["Alice"] ∧
    (removeMember true (-1) ⟨["You", "Alice"], some [.addMember]⟩).crewMembers ≠
      ["You", "Alice"] := by
  decide

/-- C2 (amended): for every roster and every integer position greater than or equal to the
number of non-sentinel members (the entries after the first), an accepted
`removeMember(position)` leaves `crewMembers` unchanged. -/
theorem removeMember_out_of_range (s : CrewState) (position : Int)
    (h : (s.crewMembers.tail.length : Int) ≤ position) :
    (removeMember true position s).crewMembers = s.crewMembers := by
  simp only [removeMember, if_true]
  have h0 : 0 ≤ position := le_trans (Int.ofNat_nonneg _) h
  rw [splice_one_of_nonneg _ _ (by omega)]
  apply List.eraseIdx_of_length_le
  simp only [List.length_tail] at h
  omega

/-- C2 witness: position 1 on the roster `["You", "Alice"]`, which has one non-sentinel
member. -/
theorem removeMember_out_of_range_witness :
    ((["You", "Alice"] : List String).tail.length : Int) ≤ 1 ∧
    (removeMember true 1 ⟨["You", "Alice"], some [.addMember]⟩).crewMembers =
      ["You", "Alice"] :=
  ⟨by decide, removeMember_out_of_range ⟨["You", "Alice"], some [.addMember]⟩ 1 (by decide)⟩

/-- C3: on a roster whose first element is "You" and for `0 ≤ i < length - 1`, an accepted
`removeMember(i)` yields "You" followed by the non-sentinel sub-list without its `i`-th
element (the other entries in their order); the roster is one entry shorter and "You" is
still first. -/
theorem removeMember_valid (s : CrewState) (i : Int)
    (hhead : s.crewMembers.head? = some "You") (h0 : 0 ≤ i)
    (hi : i < (s.crewMembers.length : Int) - 1) :
    (removeMember true i s).crewMembers =
      "You" :: (s.crewMembers.tail.take i.toNat ++ s.crewMembers.tail.drop (i.toNat + 1)) ∧
    (removeMember true i s).crewMembers.length + 1 = s.crewMembers.length ∧
    (removeMember true i s).crewMembers.head? = some "You" ∧
    s.crewMembers.tail[i.toNat]? ≠ none := by
  obtain ⟨crew, grid⟩ := s
  cases crew with
  | nil => simp at hhead
  | cons first rest =>
    simp only [List.head?_cons, Option.some.injEq] at hhead
    subst hhead
    simp only [List.length_cons, Nat.cast_add, Nat.cast_one, add_sub_cancel_right] at hi
    obtain ⟨n, rfl⟩ := Int.eq_ofNat_of_zero_le h0
    have hn : n < rest.length := by omega
    have hcrew : (removeMember true (n : Int) ⟨"You" :: rest, grid⟩).crewMembers =
        "You" :: (rest.take n ++ rest.drop (n + 1)) := by
      simp only [removeMember, if_true]
      rw [splice_one_of_nonneg _ _ (by omega)]
      have : ((n : Int) + 1).toNat = n + 1 := by omega
      rw [this, List.eraseIdx_cons_succ, List.eraseIdx_eq_take_drop_succ]
    refine ⟨by simpa using hcrew, ?_, ?_, ?_⟩
    · rw [hcrew]
      simp only [List.length_cons, List.length_append, List.length_take, List.length_drop]
      omega
    · rw [hcrew]; rfl
    · simp only [List.tail_cons, Int.toNat_ofNat, ne_eq, List.getElem?_eq_none_iff, not_le]
      exact hn

/-- C3 witness: removing position 0 of the sub-list from `["You", "Alice", "Bob"]` leaves
`["You", "Bob"]`. -/
theorem removeMember_valid_witness :
    (["You", "Alice", "Bob"] : List String).head? = some "You" ∧
    (0 : Int) < (((["You", "Alice", "Bob"] : List String).length : Int)) - 1 ∧
    (removeMember true 0 ⟨["You", "Alice", "Bob"], some [.addMember]⟩).crewMembers =
      "You" :: ((["You", "Alice", "Bob"] : List String).tail.take (0 : Int).toNat ++
        (["You", "Alice", "Bob"] : List String).tail.drop ((0 : Int).toNat + 1)) :=
  ⟨by decide, by decide,
    (removeMember_valid ⟨["You", "Alice", "Bob"], some [.addMember]⟩ 0 (by decide) (by decide)
      (by decide)).1⟩

theorem jsTrimChars_eq_nil_iff (cs : List Char) :
    jsTrimChars cs = [] ↔ ∀ c ∈ cs, isJsWhiteSpace c = true := by
  simp only [jsTrimChars, List.reverse_eq_nil_iff, List.dropWhile_eq_nil_iff, List.mem_reverse]
  constructor
  · intro h c hc
    by_contra hws
    have hmem : c ∈ cs.dropWhile isJsWhiteSpace := by
      have hsplit := List.takeWhile_append_dropWhile isJsWhiteSpace cs
      rw [← hsplit] at hc
      rcases List.mem_append.mp hc with hc | hc
      · exact absurd (List.mem_takeWhile_imp hc) hws
      · exact hc
    rcases hne : cs.dropWhile isJsWhiteSpace with _ | ⟨d, ds⟩
    · rw [hne] at hmem; simp at hmem
    · have hhead := List.head?_dropWhile_not isJsWhiteSpace cs
      rw [hne] at hhead h
      simp only [List.head?_cons] at hhead
      have := h d (List.mem_cons_self _ _)
      simp [this] at hhead
  · intro h
    have : cs.dropWhile isJsWhiteSpace = [] := List.dropWhile_eq_nil_iff.mpr h
    rw [this]
    simp

theorem jsTrimChars_split (cs : List Char) :
    ∃ pre post, cs = pre ++ jsTrimChars cs ++ post ∧
      (∀ c ∈ pre, isJsWhiteSpace c = true) ∧ (∀ c ∈ post, isJsWhiteSpace c = true) := by
  refine ⟨cs.takeWhile isJsWhiteSpace,
    (cs.dropWhile isJsWhiteSpace).rtakeWhile isJsWhiteSpace, ?_, ?_, ?_⟩
  · have h1 : jsTrimChars cs = (cs.dropWhile isJsWhiteSpace).rdropWhile isJsWhiteSpace := rfl
    have h2 : ∀ l : List Char,
        l.rdropWhile isJsWhiteSpace ++ l.rtakeWhile isJsWhiteSpace = l := by
      intro l
      simp only [List.rdropWhile, List.rtakeWhile, ← List.reverse_append,
        List.takeWhile_append_dropWhile, List.reverse_reverse]
    rw [h1, List.append_assoc, h2, List.takeWhile_append_dropWhile]
  · intro c hc
    exact List.mem_takeWhile_imp hc
  · intro c hc
    exact List.mem_rtakeWhile_imp hc

theorem jsTrimChars_ends (cs : List Char) :
    (∀ c, (jsTrimChars cs).head? = some c → isJsWhiteSpace c = false) ∧
    (∀ c, (jsTrimChars cs).getLast? = some c → isJsWhiteSpace c = false) := by
  have h1 : jsTrimChars cs = (cs.dropWhile isJsWhiteSpace).rdropWhile isJsWhiteSpace := rfl
  constructor
  · intro c hc
    have hne : jsTrimChars cs ≠ [] := by
      intro h; rw [h] at hc; simp at hc
    have hpre : jsTrimChars cs <+: cs.dropWhile isJsWhiteSpace := by
      rw [h1]; exact List.rdropWhile_prefix _ _
    obtain ⟨t, ht⟩ := hpre
    have hhead := List.head?_dropWhile_not isJsWhiteSpace cs
    rw [← ht, List.head?_append_of_ne_nil _ hne, hc] at hhead
    simpa using hhead
  · intro c hc
    have hne : (cs.dropWhile isJsWhiteSpace).rdropWhile isJsWhiteSpace ≠ [] := by
      intro h; rw [h1, h] at hc; simp at hc
    have hlast := List.rdropWhile_last_not isJsWhiteSpace _ hne
    rw [h1, List.getLast?_eq_getLast _ hne, Option.some.injEq] at hc
    rw [hc] at hlast
    simpa using hlast

/-- C9: `addTeamMember` leaves `crewMembers` unchanged when the prompt is cancelled and when
the entered name is empty or has only whitespace characters; otherwise it appends exactly
one entry at the end, after the unchanged earlier entries: the trimmed name, which is the
entered name without a whitespace-only prefix and a whitespace-only suffix, and which
neither starts nor ends with whitespace. Entering " Sam " appends "Sam". -/
theorem addTeamMember_spec (s : CrewState) (name : String) :
    (addTeamMember none s).crewMembers = s.crewMembers ∧
    ((∀ c ∈ name.data, isJsWhiteSpace c = true) →
      (addTeamMember (some name) s).crewMembers = s.crewMembers) ∧
    ((∃ c ∈ name.data, isJsWhiteSpace c = false) →
      (addTeamMember (some name) s).crewMembers = s.crewMembers ++ [jsTrim name] ∧
      (∃ pre post, name.data = pre ++ (jsTrim name).data ++ post ∧
        (∀ c ∈ pre, isJsWhiteSpace c = true) ∧ (∀ c ∈ post, isJsWhiteSpace c = true)) ∧
      (∀ c, (jsTrim name).data.head? = some c → isJsWhiteSpace c = false) ∧
      (∀ c, (jsTrim name).data.getLast? = some c → isJsWhiteSpace c = false)) ∧
    (addTeamMember (some " Sam ") s).crewMembers = s.crewMembers ++ ["Sam"] := by
  refine ⟨rfl, ?_, ?_, ?_⟩
  · intro hws
    have htrim : jsTruthy (jsTrim name) = false := by
      simp [jsTruthy, jsTrim, (jsTrimChars_eq_nil_iff name.data).mpr hws]
    simp [addTeamMember, htrim]
  · rintro ⟨c, hc, hcws⟩
    have hne : jsTrimChars name.data ≠ [] := by
      intro h
      have := (jsTrimChars_eq_nil_iff name.data).mp h c hc
      rw [this] at hcws
      exact Bool.noConfusion hcws
    have htrim : jsTruthy (jsTrim name) = true := by
      simp [jsTruthy, jsTrim, hne]
    have hname : jsTruthy name = true := by
      have : name.data ≠ [] := List.ne_nil_of_mem hc
      simp [jsTruthy, this]
    refine ⟨?_, jsTrimChars_split name.data, (jsTrimChars_ends name.data).1,
      (jsTrimChars_ends name.data).2⟩
    simp [addTeamMember, htrim, hname]
  · have htrim : jsTrim " Sam " = "Sam" := by decide
    have h1 : jsTruthy " Sam " = true := by decide
    have h2 : jsTruthy "Sam" = true := by decide
    simp [addTeamMember, htrim, h1, h2]

/-- C9 witness: a name of three blanks changes nothing, and " Sam " appends "Sam". -/
theorem addTeamMember_spec_witness :
    (addTeamMember (some "   ") ⟨["You"], some [.addMember]⟩).crewMembers = ["You"] ∧
    (addTeamMember (some " Sam ") ⟨["You"], some [.addMember]⟩).crewMembers =
      ["You"] ++ [jsTrim " Sam "] :=
  ⟨(addTeamMember_spec ⟨["You"], some [.addMember]⟩ "   ").2.1 (by decide),
   ((addTeamMember_spec ⟨["You"], some [.addMember]⟩ " Sam ").2.2.1
      ⟨'S', by decide, by decide⟩).1⟩

/-! ## Properties of the event list -/

theorem joinEvent_nil (eventId : Int) : joinEvent [] eventId = [] := rfl

theorem joinEvent_cons (e : Event) (rest : List Event) (eventId : Int) :
    joinEvent (e :: rest) eventId =
      if e.id = eventId then e.incrementParticipants :: rest
      else e :: joinEvent rest eventId := by
  by_cases h : e.id = eventId
  · simp [joinEvent, List.findIdx?_cons, h, List.modify]
  · have hb : (e.id == eventId) = false := by simpa using h
    simp only [joinEvent, List.findIdx?_cons, hb, Bool.false_eq_true, if_false, if_neg h,
      List.findIdx?_succ, zero_add]
    cases hfind : List.findIdx? (fun e => e.id == eventId) rest with
    | none => simp
    | some i => simp [List.modify]

theorem joinEvent_of_not_mem (events : List Event) (eventId : Int)
    (h : ∀ e ∈ events, e.id ≠ eventId) : joinEvent events eventId = events := by
  induction events with
  | nil => rfl
  | cons e rest ih =>
    rw [joinEvent_cons, if_neg (h e (List.mem_cons_self _ _))]
    rw [ih fun x hx => h x (List.mem_cons_of_mem _ hx)]

theorem joinEvent_eq_map (events : List Event) (eventId : Int)
    (hunique : (events.map Event.id).Nodup) :
    joinEvent events eventId =
      events.map fun e => if e.id = eventId then e.incrementParticipants else e := by
  induction events with
  | nil => rfl
  | cons e rest ih =>
    simp only [List.map_cons, List.nodup_cons, List.mem_map, not_exists, not_and] at hunique
    rw [joinEvent_cons]
    by_cases h : e.id = eventId
    · rw [if_pos h]
      simp only [List.map_cons, if_pos h]
      congr 1
      symm
      calc rest.map (fun e => if e.id = eventId then e.incrementParticipants else e)
          = rest.map id := by
            apply List.map_congr_left
            intro x hx
            have : x.id ≠ eventId := fun hxe => hunique.1 x hx (hxe.trans h.symm)
            simp [this]
        _ = rest := List.map_id _
    · rw [if_neg h, ih hunique.2]
      simp only [List.map_cons, if_neg h]

theorem ulpExponent_zero_of_lt (a : Nat) (h : a < 2 ^ 53) : ulpExponent a a 0 = 0 := by
  cases a with
  | zero => rfl
  | succ m => simp only [ulpExponent, pow_zero, Nat.div_one, if_pos h]

theorem roundToDouble_of_safe (x : Int) (h : x.natAbs ≤ 2 ^ 53) : roundToDouble x = x := by
  rcases Nat.lt_or_eq_of_le h with hlt | heq
  · simp only [roundToDouble, ulpExponent_zero_of_lt _ hlt, pow_zero, Nat.mod_one, Nat.div_one,
      mul_zero, mul_one]
    have hno : ¬ (1 < 0 ∨ (0 = 1 ∧ x.natAbs % 2 = 1)) := by omega
    rw [if_neg hno]
    exact Int.sign_mul_natAbs x
  · rcases Int.natAbs_eq x with hx | hx
    · rw [hx, heq]; decide
    · rw [hx, heq]; decide

theorem jsIncrement_of_safe (n : Int) (hlow : -(2 : Int) ^ 53 ≤ n) (hhigh : n < (2 : Int) ^ 53) :
    jsIncrement n = n + 1 := by
  apply roundToDouble_of_safe
  norm_num at hlow hhigh ⊢
  omega

/-- C8 (as stated, refuted): in the seed list with the counter of event 1 set to `2 ^ 53`
the ids are unique and event 1 exists, yet `joinEvent(1)` leaves its `participants` at
`2 ^ 53`: the number increment rounds `2 ^ 53 + 1` back. -/
theorem joinEvent_saturation_counterexample :
    ((SAMPLE_EVENTS.map fun e =>
        if e.id = 1 then { e with participants := 9007199254740992 } else e).map
      Event.id).Nodup ∧
    ((joinEvent (SAMPLE_EVENTS.map fun e =>
        if e.id = 1 then { e with participants := 9007199254740992 } else e) 1).map
      Event.participants) = [9007199254740992, 18, 32] ∧
    ((joinEvent (SAMPLE_EVENTS.map fun e =>
        if e.id = 1 then { e with participants := 9007199254740992 } else e) 1).map
      Event.participants) ≠ [9007199254740992 + 1, 18, 32] := by
  decide

/-- C8 (amended): on an event list with unique ids in which the event with the given id, if
any, has a `participants` counter `n` with `-2 ^ 53 ≤ n < 2 ^ 53`, `joinEvent(id)` keeps the
length and the order; the event with that id has its `participants` increased by exactly 1
and all its other fields unchanged, every other event is unchanged; when no event has that
id the list is unchanged. -/
theorem joinEvent_frame (events : List Event) (eventId : Int)
    (hunique : (events.map Event.id).Nodup)
    (hsafe : ∀ e ∈ events, e.id = eventId →
      -(2 : Int) ^ 53 ≤ e.participants ∧ e.participants < (2 : Int) ^ 53) :
    (joinEvent events eventId).length = events.length ∧
    (∀ (i : Nat) (e : Event), events[i]? = some e →
      (joinEvent events eventId)[i]? =
        some (if e.id = eventId then { e with participants := e.participants + 1 } else e)) ∧
    ((∀ e ∈ events, e.id ≠ eventId) → joinEvent events eventId = events) := by
  refine ⟨?_, ?_, joinEvent_of_not_mem events eventId⟩
  · rw [joinEvent_eq_map events eventId hunique, List.length_map]
  · intro i e hi
    rw [joinEvent_eq_map events eventId hunique, List.getElem?_map, hi]
    by_cases hid : e.id = eventId
    · have hmem : e ∈ events := List.getElem?_mem hi
      have hbound := hsafe e hmem hid
      simp only [Option.map_some', if_pos hid, Event.incrementParticipants,
        jsIncrement_of_safe _ hbound.1 hbound.2]
    · simp only [Option.map_some', if_neg hid]

/-- C8 witness: joining event 2 of `SAMPLE_EVENTS`, whose counter 18 is in the safe range,
turns 18 participants into 19 and keeps the three events in place. -/
theorem joinEvent_frame_witness :
    (SAMPLE_EVENTS.map Event.id).Nodup ∧
    (∀ e ∈ SAMPLE_EVENTS, e.id = 2 →
      -(2 : Int) ^ 53 ≤ e.participants ∧ e.participants < (2 : Int) ^ 53) ∧
    (joinEvent SAMPLE_EVENTS 2).length = SAMPLE_EVENTS.length ∧
    (joinEvent SAMPLE_EVENTS 2).map Event.participants = [24, 19, 32] :=
  ⟨by decide, by decide, (joinEvent_frame SAMPLE_EVENTS 2 (by decide) (by decide)).1,
    by decide⟩

/-! ## Properties of the weather display -/

theorem forecastIndices_eq (length : Nat) :
    forecastIndices length = List.range' 1 (min 4 (length - 1)) := by
  rcases length with _ | _ | _ | _ | _ | n
  · decide
  · decide
  · decide
  · decide
  · decide
  · have h : min 4 (n + 1 + 1 + 1 + 1 + 1 - 1) = 4 := by omega
    rw [h]
    simp [forecastIndices, List.range', List.takeWhile]

theorem appendCards_of_ok (mk : Nat → Except JsError ForecastCard) (f : Nat → ForecastCard)
    (indices : List Nat) (hok : ∀ i ∈ indices, mk i = .ok (f i)) (children : List ForecastCard) :
    appendCards mk indices children = (children ++ indices.map f, none) := by
  induction indices generalizing children with
  | nil => simp [appendCards]
  | cons i rest ih =>
    have hi := hok i (List.mem_cons_self _ _)
    simp only [appendCards, hi]
    rw [ih (fun j hj => hok j (List.mem_cons_of_mem _ hj))]
    simp

theorem appendCards_forecastCardAt {ν : Type} (F : Formatter ν) (time : List String)
    (maxs mins : List ν) (codes : List Int) (indices : List Nat)
    (children : List ForecastCard) :
    appendCards (forecastCardAt F ⟨some time, some maxs, some mins, some codes⟩ time)
        indices children =
      (children ++ indices.map (fun i =>
        { date := F.formatDate time[i]?
          emoji := emojiOfCode codes[i]?
          condition := describeCode codes[i]?
          maxTemp := F.roundText maxs[i]?
          minTemp := F.roundText mins[i]? }), none) :=
  appendCards_of_ok _ _ indices (fun _ _ => rfl) children

/-- C7: when the forecast container exists and the four arrays of the daily payload all
have length `N ≥ 1`, `displayForecast` ends without exception and leaves exactly
`min 4 (N - 1)` cards in the container; for `k = 1 .. min 4 (N - 1)` the `k`-th card
is made from the entries at index `k` of the four arrays. So `N ≥ 5` gives 4 cards and
`N = 3` gives 2 cards. -/
theorem displayForecast_cards {ν : Type} (F : Formatter ν) (ui : WeatherUI)
    (content : ForecastContent) (time : List String) (maxs mins : List ν) (codes : List Int)
    (N : Nat) (hN : 1 ≤ N) (hwidget : ui.forecastWidget = some content)
    (htime : time.length = N) (hmaxs : maxs.length = N) (hmins : mins.length = N)
    (hcodes : codes.length = N) :
    ∃ cards : List ForecastCard,
      displayForecast F ui ⟨some time, some maxs, some mins, some codes⟩ =
        ({ ui with forecastWidget := some (.cards cards) }, none) ∧
      cards.length = min 4 (N - 1) ∧
      (∀ k : Nat, 1 ≤ k → k ≤ min 4 (N - 1) →
        ∃ (t : String) (mx mn : ν) (c : Int),
          time[k]? = some t ∧ maxs[k]? = some mx ∧ mins[k]? = some mn ∧ codes[k]? = some c ∧
          cards[k - 1]? = some
            { date := F.formatDate (some t)
              emoji := getWeatherEmoji c
              condition := getWeatherDescription c
              maxTemp := F.roundText (some mx)
              minTemp := F.roundText (some mn) }) ∧
      (5 ≤ N → cards.length = 4) ∧ (N = 3 → cards.length = 2) := by
  let f : Nat → ForecastCard := fun i =>
    { date := F.formatDate time[i]?
      emoji := emojiOfCode codes[i]?
      condition := describeCode codes[i]?
      maxTemp := F.roundText maxs[i]?
      minTemp := F.roundText mins[i]? }
  have hrun : appendCards (forecastCardAt F ⟨some time, some maxs, some mins, some codes⟩ time)
      (forecastIndices time.length) [] = ((forecastIndices time.length).map f, none) := by
    rw [appendCards_forecastCardAt]
    simp [f]
  have hlen : ((forecastIndices time.length).map f).length = min 4 (N - 1) := by
    rw [List.length_map, forecastIndices_eq, List.length_range', htime]
  refine ⟨(forecastIndices time.length).map f, ?_, hlen, ?_, ?_, ?_⟩
  · simp only [displayForecast, hwidget, hrun]
  · intro k hk1 hk
    have hkN : k < N := by omega
    obtain ⟨t, ht⟩ : ∃ t, time[k]? = some t :=
      ⟨time[k], List.getElem?_eq_getElem (by omega)⟩
    obtain ⟨mx, hmx⟩ : ∃ mx, maxs[k]? = some mx :=
      ⟨maxs[k], List.getElem?_eq_getElem (by omega)⟩
    obtain ⟨mn, hmn⟩ : ∃ mn, mins[k]? = some mn :=
      ⟨mins[k], List.getElem?_eq_getElem (by omega)⟩
    obtain ⟨c, hc⟩ : ∃ c, codes[k]? = some c :=
      ⟨codes[k], List.getElem?_eq_getElem (by omega)⟩
    refine ⟨t, mx, mn, c, ht, hmx, hmn, hc, ?_⟩
    have hidx : (forecastIndices time.length)[k - 1]? = some k := by
      have hlt : k - 1 < min 4 (N - 1) := by omega
      rw [forecastIndices_eq, htime, List.getElem?_range' 1 1 hlt]
      congr 1
      omega
    rw [List.getElem?_map, hidx]
    simp only [Option.map_some', f, ht, hmx, hmn, hc, emojiOfCode, describeCode]
  · intro h5
    rw [hlen]; omega
  · intro h3
    rw [hlen]; omega

/-- C7 witness: a payload of three days gives two cards, made from indices 1 and 2. -/
theorem displayForecast_cards_witness :
    ∃ cards : List ForecastCard,
      displayForecast (Formatter.mk (fun _ => "r") (fun _ => "t") (fun d => d.getD ""))
          ⟨none, none, none, none, some (.html "")⟩
          ⟨some ["d0", "d1", "d2"], some [30, 31, 32], some [24, 25, 26], some [0, 3, 95]⟩ =
        ({ (⟨none, none, none, none, some (.html "")⟩ : WeatherUI) with
            forecastWidget := some (.cards cards) }, none) ∧
      cards.length = min 4 (3 - 1) :=
  let ⟨cards, h1, h2, _⟩ :=
    displayForecast_cards (Formatter.mk (fun _ => "r") (fun _ => "t") (fun d => d.getD ""))
      ⟨none, none, none, none, some (.html "")⟩ (.html "") ["d0", "d1", "d2"]
      [(30 : Int), 31, 32] [24, 25, 26] [0, 3, 95] 3 (by decide) rfl rfl rfl rfl rfl
  ⟨cards, h1, h2⟩

/-- C5 (as stated, refuted): a successful response whose body has a `current` object and no
`daily` field runs `displayWeather` only, which is neither of the two alternatives. -/
theorem fetchWeatherData_no_daily_counterexample :
    (fetchWeatherData plainFormatter
      (.response true (some (.value (some ⟨some 28, some 11, some 80, some 3⟩) none)))
      ⟨[], ⟨some "", some "", some "", some "", some (.html "")⟩, none⟩).calls
      = [Call.displayWeather] ∧
    ¬ ((Call.displayWeather ∈ [Call.displayWeather] ∧
          Call.displayForecast ∈ [Call.displayWeather] ∧
          Call.displayWeatherError ∉ [Call.displayWeather]) ∨
        (Call.displayWeatherError ∈ [Call.displayWeather] ∧
          Call.displayWeather ∉ [Call.displayWeather] ∧
          Call.displayForecast ∉ [Call.displayWeather])) := by
  decide

/-- A successful response whose `daily` object has no `time` array, shown in a page that has
the forecast container: `displayForecast` throws after `displayWeather` has run, so all three
display functions are called. -/
theorem fetchWeatherData_daily_without_time :
    (fetchWeatherData plainFormatter
      (.response true (some (.value (some ⟨some 28, some 11, some 80, some 3⟩)
        (some ⟨none, some [30, 31], some [24, 25], some [0, 3]⟩))))
      ⟨[], ⟨some "", some "", some "", some "", some (.html "")⟩, none⟩).calls
      = [Call.displayWeather, Call.displayForecast, Call.displayWeatherError] := by
  decide

/-- C5 (amended): the display functions one run of `fetchWeatherData` calls, after those
called before. Request failure, a non-success status, an unparsable body and the body
`null` give `displayWeatherError` alone. A parsed body with a `current` object and a `daily`
object holding its four arrays gives `displayWeather` then `displayForecast`, without
`displayWeatherError`. A parsed body with a `current` object and no `daily` field gives
`displayWeather` alone. -/
theorem fetchWeatherData_calls {ν : Type} (F : Formatter ν) (start : FetchRun ν) :
    (fetchWeatherData F .requestFailed start).calls
      = start.calls ++ [Call.displayWeatherError] ∧
    (∀ body, (fetchWeatherData F (.response false body) start).calls
      = start.calls ++ [Call.displayWeatherError]) ∧
    (fetchWeatherData F (.response true none) start).calls
      = start.calls ++ [Call.displayWeatherError] ∧
    (fetchWeatherData F (.response true (some .null)) start).calls
      = start.calls ++ [Call.displayWeatherError] ∧
    (∀ (current : CurrentWeather ν) (time : List String) (maxs mins : List ν)
        (codes : List Int),
      (fetchWeatherData F (.response true (some (.value (some current)
        (some ⟨some time, some maxs, some mins, some codes⟩)))) start).calls
      = start.calls ++ [Call.displayWeather, Call.displayForecast]) ∧
    (∀ current : CurrentWeather ν,
      (fetchWeatherData F (.response true (some (.value (some current) none))) start).calls
      = start.calls ++ [Call.displayWeather]) := by
  refine ⟨rfl, fun _ => rfl, rfl, rfl, ?_, fun _ => rfl⟩
  intro current time maxs mins codes
  have hnone : ∀ ui : WeatherUI,
      (displayForecast F ui ⟨some time, some maxs, some mins, some codes⟩).2 = none := by
    intro ui
    simp only [displayForecast]
    cases ui.forecastWidget with
    | none => rfl
    | some content =>
      simp only
      rw [appendCards_forecastCardAt]
  simp only [fetchWeatherData, fetchTry, displayWeather]
  split
  · next run heq =>
    simp only [Prod.mk.injEq] at heq
    rw [← heq.1]
    simp
  · next run e heq =>
    simp only [Prod.mk.injEq] at heq
    rw [hnone] at heq
    exact absurd heq.2 (by simp)

/-! ## Sharing an event -/

/-- C6 (code defect): `SAMPLE_EVENTS` has no event with id 99, and `shareEvent(99)` throws a
`TypeError` whether or not native share is available: the `else` branch reads `event.name`
of the `undefined` result of `find`. -/
theorem shareEvent_missing_id_throws :
    (∀ e ∈ SAMPLE_EVENTS, e.id ≠ 99) ∧
    shareEvent SAMPLE_EVENTS true 99 = .error .typeError ∧
    shareEvent SAMPLE_EVENTS false 99 = .error .typeError := by
  decide

/-- What holds of `shareEvent`: for an id that is present it does not throw, and without
native share it shows the local share prompt for the first event with that id. -/
theorem shareEvent_present (events : List Event) (shareAvailable : Bool) (eventId : Int)
    (e : Event) (hfind : events.find? (fun x => x.id == eventId) = some e) :
    shareEvent events shareAvailable eventId =
      if shareAvailable then
        .ok (.nativeShare "ShoreSquad Event" ("Join me for " ++ e.name ++ "!"))
      else .ok (.alert ("Share \"" ++ e.name ++ "\" with your crew! 🌊")) := by
  cases shareAvailable <;> simp [shareEvent, hfind]

/-- For an id that no event has, `shareEvent` throws whatever the share capability. -/
theorem shareEvent_absent (events : List Event) (shareAvailable : Bool) (eventId : Int)
    (hfind : events.find? (fun x => x.id == eventId) = none) :
    shareEvent events shareAvailable eventId = .error .typeError := by
  cases shareAvailable <;> simp [shareEvent, hfind]

end ShoreSquad
